import Mathlib

/-!
Verification of the query-routing and hybrid-context-assembly logic of the
TFN-AI-BOT repository (`src/app/api/rag-alumni/route.js`).

The JavaScript route is shallowly embedded: strings are Lean `String`s,
JavaScript string operations (`toLowerCase`, `includes`, `trim`,
`split(/\s+/)`, regexes with word boundaries, the name-extraction regex,
`JSON.stringify` on flat string objects) are given executable Lean
definitions, records of the JSON collections are association lists of
string fields, and the module-level caches plus the effectful steps
(reading `combined_data.json`, loading the FAISS store, invoking the
retriever and the Bedrock model) are explicit state passing over a
`World` of abstract effect results.
-/

namespace TFN

/-! ## JavaScript string primitives -/

/-- JavaScript `\s` whitespace class (the ASCII part actually exercised). -/
def wsChar (c : Char) : Bool :=
  c = ' ' || c = '\t' || c = '\n' || c = '\r' || c = '\x0b' || c = '\x0c'

/-- JavaScript `String.prototype.toLowerCase` (ASCII case folding). -/
def jsToLower (s : String) : String := String.mk (s.data.map Char.toLower)

/-- The pattern `p` occurs in `s` starting at index `i`. -/
def matchesAt (p s : List Char) (i : Nat) : Bool :=
  (s.drop i).take p.length == p

/-- Whether `needle` occurs contiguously inside `haystack`. -/
def listSub (needle haystack : List Char) : Bool :=
  (List.range (haystack.length + 1)).any (matchesAt needle haystack)

/-- JavaScript `haystack.includes(needle)`. -/
def jsIncludes (haystack needle : String) : Bool :=
  listSub needle.data haystack.data

/-- JavaScript `String.prototype.trim`. -/
def jsTrim (s : String) : String :=
  String.mk (((s.data.dropWhile wsChar).reverse.dropWhile wsChar).reverse)

/-- JavaScript `str.split(/\s+/)`: fields between maximal whitespace runs, keeping
the empty fields that JavaScript produces at the edges. `cur` holds the
reversed current field; `inWs` records that we are inside a whitespace
run (whose field has already been emitted). -/
def splitWsAux : List Char → List Char → Bool → List String
  | [], _, true => [""]
  | [], cur, false => [String.mk cur.reverse]
  | c :: rest, cur, inWs =>
    if wsChar c then
      if inWs then splitWsAux rest cur true
      else String.mk cur.reverse :: splitWsAux rest [] true
    else
      if inWs then splitWsAux rest [c] false
      else splitWsAux rest (c :: cur) false

def jsSplitWs (s : String) : List String := splitWsAux s.data [] false

/-- JavaScript truthiness of an optional string (`undefined`/`''` falsy). -/
def truthy (o : Option String) : Bool :=
  match o with
  | some s => !s.isEmpty
  | none => false

/-- JavaScript `a.endsWith(b)` on strings, via the character lists. -/
def strTail (s t : String) : Bool :=
  t.data.length ≤ s.data.length && s.data.drop (s.data.length - t.data.length) == t.data

/-- The string ends with a newline. -/
def endsWithNl (s : String) : Prop := ∃ u, s.data = u ++ ['\n']

/-- The string ends with two newlines. -/
def endsWithNlNl (s : String) : Prop := ∃ u, s.data = u ++ ['\n', '\n']

/-! ## Word-boundary regex tests (`\b(w1|w2|...)\b`) -/

/-- JavaScript `\w` word characters. -/
def isWordChar (c : Char) : Bool :=
  ('a' ≤ c && c ≤ 'z') || ('A' ≤ c && c ≤ 'Z') || ('0' ≤ c && c ≤ '9') || c = '_'

/-- The word `w` occurs in `s` at index `i` with `\b` boundaries at both ends. -/
def wordHitAt (w s : List Char) (i : Nat) : Bool :=
  matchesAt w s i &&
  (i == 0 || !isWordChar (s.getD (i - 1) ' ')) &&
  (i + w.length == s.length || !isWordChar (s.getD (i + w.length) ' '))

/-- Whether `\bw\b` matches somewhere in `s`. -/
def wordMatch (w : String) (s : String) : Bool :=
  (List.range (s.data.length + 1)).any (wordHitAt w.data s.data)

/-- Whether `\b(w1|w2|...)\b` matches somewhere in `s`. -/
def wordAny (ws : List String) (s : String) : Bool := ws.any (wordMatch · s)

/-! ## The name-extraction regex of `searchStructuredData`

`/(?:who is|tell me about|find|show me)\s+([a-z\s]+?)(?:\s+(alumni|fellow|staff|partner|school))?$/i`

Embedded as a backtracking matcher with the engine's priorities: leftmost
start index, alternatives in written order, greedy `\s+`, lazy capture,
greedy optional suffix group. -/

def ciEq (a b : Char) : Bool := a.toLower == b.toLower

/-- Case-insensitive literal match of `p` in `s` at index `i`. -/
def matchCIAt (p s : List Char) (i : Nat) : Bool :=
  i + p.length ≤ s.length && (((s.drop i).take p.length).zip p).all fun x => ciEq x.1 x.2

/-- The character class `[a-z\s]` under the `i` flag. -/
def capClass (c : Char) : Bool :=
  ('a' ≤ c.toLower && c.toLower ≤ 'z') || wsChar c

def nameTypeWords : List String := ["alumni", "fellow", "staff", "partner", "school"]

def leadWords : List String := ["who is", "tell me about", "find", "show me"]

/-- Does `rest2` consist of nonempty whitespace followed by one of the five
type words, ending the string (the optional `(?:\s+(type))?$` suffix)? -/
def typeSuffix (rest2 : List Char) : Bool :=
  nameTypeWords.any fun t =>
    let tl := t.data.length
    rest2.length ≥ tl + 1 &&
    matchCIAt t.data rest2 (rest2.length - tl) &&
    (rest2.take (rest2.length - tl)).all wsChar

/-- Try the whole pattern at start index `i`; returns the first capture in
backtracking order. -/
def matchFrom (s : List Char) (i : Nat) : Option (List Char) :=
  leadWords.findSome? fun p =>
    if matchCIAt p.data s i then
      let r := s.drop (i + p.data.length)
      let m := (r.takeWhile wsChar).length
      if m == 0 then none
      else
        (List.range m).findSome? fun dw =>
          let rest := r.drop (m - dw)
          (List.range rest.length).findSome? fun cidx =>
            let C := rest.take (cidx + 1)
            if C.all capClass then
              let rest2 := rest.drop (cidx + 1)
              if typeSuffix rest2 then some C
              else if rest2.isEmpty then some C
              else none
            else none
    else none

/-- JavaScript `query.match(nameRegex)`: group 1 of the leftmost match, if any. -/
def extractRaw (s : List Char) : Option (List Char) :=
  (List.range (s.length + 1)).findSome? (matchFrom s)

/-- JavaScript `nameMatch ? nameMatch[1].trim() : ''`. -/
def extractSearchName (q : String) : String :=
  match extractRaw q.data with
  | some C => jsTrim (String.mk C)
  | none => ""

/-! ## `analyzeQueryType` -/

structure Analysis where
  isStructured : Bool
  type : Option String
  confidence : Nat
  wantsComplete : Bool
  query : String
deriving DecidableEq, Repr

/-- The `explicitTypeCheck` table, in the object's insertion order. -/
def explicitTypeList : List (String × List String) :=
  [("alumni", ["alumni", "alumnus"]),
   ("fellows", ["fellow", "fellows"]),
   ("staff", ["staff", "team member", "employee"]),
   ("partners", ["partner", "partners", "partnership"]),
   ("schools", ["school", "schools", "college", "university"])]

structure PatternCfg where
  keywords : List String
  phrases : List String
  exclusions : List String
deriving DecidableEq, Repr

/-- The `patterns` table, in the object's insertion order. -/
def patternList : List (String × PatternCfg) :=
  [("staff",
    ⟨["ceo", "director", "manager", "coordinator",
      "executive", "chief", "head of", "works at tfn"],
     ["who works", "team member", "work at"],
     ["alumni", "fellow", "partner", "school"]⟩),
   ("partners",
    ⟨["partnership", "collaborate", "organization",
      "ministry", "bank", "ngo", "nonprofit", "corporate", "sponsor",
      "fund", "support", "donor"],
     ["partner with", "works with", "collaborated with"],
     ["alumni", "fellow", "staff", "school"]⟩),
   ("alumni",
    ⟨["graduate", "ex-fellow", "former fellow", "graduated", "batch", "cohort"],
     ["who are alumni", "alumni of", "former tfn"],
     ["current fellow", "staff", "partner"]⟩),
   ("fellows",
    ⟨["current fellow", "selected fellow", "participant", "awardee", "grantee"],
     ["who are fellows", "fellows of", "active fellow"],
     ["alumni", "former", "graduated"]⟩),
   ("schools",
    ⟨["college", "university", "institution", "campus", "education partner"],
     ["which school", "schools of", "educational institution"],
     []⟩)]

/-- The word-boundary regex of the explicit branch:
`/\b(all|list|every|show me)\b/`. -/
def explicitListWords : List String := ["all", "list", "every", "show me"]

/-- The substring list indicators of the fallback branch. -/
def listIndicators : List String := ["all", "list", "every", "who are", "show me", "give me"]

/-- The `bestMatch` accumulation loop over the (non-excluded) scored types. -/
def loopBest : List (String × Nat) → Option String × Nat → Option String × Nat
  | [], acc => acc
  | p :: rest, acc => loopBest rest (if p.2 > acc.2 then (some p.1, p.2) else acc)

/-- Keyword/phrase score of one pattern config against the lowercased query. -/
def patternScore (lq : String) (cfg : PatternCfg) : Nat :=
  cfg.keywords.countP (fun kw => jsIncludes lq kw) * 2 +
  cfg.phrases.countP (fun ph => jsIncludes lq ph) * 4

/-- The function `analyzeQueryType(query)` from `route.js`. -/
def analyzeQueryType (query : String) : Analysis :=
  let lowerQuery := jsToLower query
  match explicitTypeList.find? (fun p => wordAny p.2 lowerQuery) with
  | some p =>
    { isStructured := true
      type := some p.1
      confidence := 10
      wantsComplete := wordAny explicitListWords lowerQuery
      query := lowerQuery }
  | none =>
    let best := loopBest
      (patternList.filterMap fun p =>
        if p.2.exclusions.any (fun excl => jsIncludes lowerQuery excl) then none
        else some (p.1, patternScore lowerQuery p.2))
      (none, 0)
    { isStructured := best.2 > 0
      type := best.1
      confidence := best.2
      wantsComplete := listIndicators.any (fun ind => jsIncludes lowerQuery ind)
      query := lowerQuery }

/-! ## Records and collections -/

/-- A record of one JSON collection: a flat object of string fields, kept
as an association list in insertion order (for `JSON.stringify`). -/
structure Item where
  fields : List (String × String)
deriving DecidableEq, Repr

def Item.lookup (it : Item) (k : String) : Option String :=
  (it.fields.find? (fun p => p.1 == k)).map (·.2)

def Item.name (it : Item) : Option String := it.lookup "name"
def Item.role (it : Item) : Option String := it.lookup "role"
def Item.bio (it : Item) : Option String := it.lookup "bio"
def Item.descr (it : Item) : Option String := it.lookup "description"
def Item.contact_person (it : Item) : Option String := it.lookup "contact_person"
def Item.profile_url (it : Item) : Option String := it.lookup "profile_url"
def Item.cohort (it : Item) : Option String := it.lookup "cohort"
def Item.district (it : Item) : Option String := it.lookup "district"
def Item.location (it : Item) : Option String := it.lookup "location"
def Item.typeField (it : Item) : Option String := it.lookup "type"

/-- JSON string escaping as performed by `JSON.stringify`. -/
def escJsonChar (c : Char) : String :=
  if c = '"' then "\\\""
  else if c = '\\' then "\\\\"
  else if c = '\n' then "\\n"
  else if c = '\t' then "\\t"
  else if c = '\r' then "\\r"
  else if c = '\x08' then "\\b"
  else if c = '\x0c' then "\\f"
  else if c < ' ' then "\\u00" ++ String.mk [Nat.digitChar (c.toNat / 16), Nat.digitChar (c.toNat % 16)]
  else String.mk [c]

def escJson (s : String) : String := String.join (s.data.map escJsonChar)

/-- JavaScript `JSON.stringify(item)` for a flat object of string fields. -/
def jsonStringify (it : Item) : String :=
  "\x7b" ++
    String.intercalate ","
      (it.fields.map fun p => "\"" ++ escJson p.1 ++ "\":\"" ++ escJson p.2 ++ "\"") ++
  "\x7d"

/-- The parsed `combined_data.json`; a missing key is `none`. -/
structure StructuredData where
  staff_members : Option (List Item)
  partners : Option (List Item)
  alumni : Option (List Item)
  fellows : Option (List Item)
  schools : Option (List Item)
deriving DecidableEq, Repr

/-- The lookup `data[dataKey]`. -/
def dataGet (d : StructuredData) (key : String) : Option (List Item) :=
  if key == "staff_members" then d.staff_members
  else if key == "partners" then d.partners
  else if key == "alumni" then d.alumni
  else if key == "fellows" then d.fellows
  else if key == "schools" then d.schools
  else none

/-- The `dataKey` reassignment chain at the top of `searchStructuredData`. -/
def dataKeyOf (typ : String) : String :=
  if typ == "staff" then "staff_members"
  else if typ == "fellows" then "fellows"
  else if typ == "alumni" then "alumni"
  else if typ == "schools" then "schools"
  else if typ == "partners" then "partners"
  else typ

/-- The fallback object returned when `combined_data.json` cannot be read
or parsed: `{ staff_members: [], partners: [] }`. -/
def fallbackData : StructuredData :=
  { staff_members := some []
    partners := some []
    alumni := none
    fellows := none
    schools := none }

/-! ## `searchStructuredData` -/

structure ScoredItem where
  item : Item
  score : Nat
deriving DecidableEq, Repr

structure SearchOut where
  results : List ScoredItem
  totalCount : Nat
deriving DecidableEq, Repr

/-- One insertion step of the stable descending sort
(`.sort((a, b) => b.score - a.score)`). -/
def insertDesc (x : ScoredItem) : List ScoredItem → List ScoredItem
  | [] => [x]
  | y :: ys => if x.score > y.score then x :: y :: ys else y :: insertDesc x ys

/-- Stable sort by descending score. -/
def sortDesc : List ScoredItem → List ScoredItem
  | [] => []
  | x :: xs => insertDesc x (sortDesc xs)

/-- The per-item score of the targeted name search branch. -/
def nameScore (searchName : String) (item : Item) : Nat :=
  let itemName := jsToLower (item.name.getD "")
  let base :=
    if itemName == searchName then 100
    else if jsIncludes itemName searchName || jsIncludes searchName itemName then 50
    else
      ((jsSplitWs searchName).filter fun w =>
        w.length > 2 &&
          (jsSplitWs itemName).any (fun iw => jsIncludes iw w || jsIncludes w iw)).length * 20
  base +
    if truthy item.role &&
        (jsSplitWs searchName).any (fun w => jsIncludes (jsToLower (item.role.getD "")) w) then
      10
    else 0

/-- The per-item score of the generic search branch. -/
def genericScore (query : String) (item : Item) : Nat :=
  let itemText := jsToLower (jsonStringify item)
  (if truthy item.name && jsIncludes query (jsToLower (item.name.getD "")) then 10 else 0) +
  (if truthy item.role && jsIncludes query (jsToLower (item.role.getD "")) then 5 else 0) +
  (((jsSplitWs query).filter fun w => w.length > 3).filter fun w => jsIncludes itemText w).length

/-- The function `searchStructuredData(data, query, type, wantsComplete, showAll)`. -/
def searchStructuredData (data : StructuredData) (query : String) (typ : String)
    (wantsComplete : Bool) (showAll : Bool) : SearchOut :=
  let allItems := (dataGet data (dataKeyOf typ)).getD []
  let totalCount := allItems.length
  if showAll then
    { results := allItems.map fun item => ⟨item, 1⟩, totalCount := totalCount }
  else
    let maxDisplay := 3
    let searchName := extractSearchName query
    if !searchName.isEmpty && searchName.length > 2 && !wantsComplete then
      { results :=
          (sortDesc ((allItems.map fun item => (⟨item, nameScore searchName item⟩ : ScoredItem)).filter
            fun r => r.score > 0)).take maxDisplay
        totalCount := totalCount }
    else if wantsComplete || allItems.length ≤ maxDisplay then
      { results := (allItems.take maxDisplay).map fun item => ⟨item, 1⟩
        totalCount := totalCount }
    else
      let scored :=
        (sortDesc ((allItems.map fun item => (⟨item, genericScore query item⟩ : ScoredItem)).filter
          fun r => r.score > 0)).take maxDisplay
      { results :=
          if scored.length > 0 then scored
          else (allItems.take maxDisplay).map fun item => ⟨item, 1⟩
        totalCount := totalCount }

/-! ## `formatStructuredContext` -/

structure FmtOut where
  context : String
  hasMore : Bool
  totalCount : Nat
  shownCount : Nat
deriving DecidableEq, Repr

/-- Template interpolation of a possibly-undefined field (`${undefined}`
renders as `"undefined"`). -/
def interp (o : Option String) : String := o.getD "undefined"

/-- A conditionally emitted line (`if (cond) context += line + '\n'`). -/
def lineIf (c : Bool) (s : String) : String := if c then s ++ "\n" else ""

/-- One numbered block of the structured context, per entity type
(the `shown.forEach` body). -/
def itemBlock (typ : String) (idx : Nat) (item : Item) : String :=
  if typ == "staff" then
    toString (idx + 1) ++ ". Name: " ++ interp item.name ++ "\n" ++
    "   Role: " ++ interp item.role ++ "\n" ++
    lineIf (truthy item.bio && item.bio.getD "" != "No biography available")
      ("   Bio: " ++ interp item.bio) ++
    "\n"
  else if typ == "partners" then
    toString (idx + 1) ++ ". Name: " ++ interp item.name ++ "\n" ++
    "   Type: " ++ interp item.typeField ++ "\n" ++
    lineIf (truthy item.descr && item.descr.getD "" != "No description available")
      ("   Description: " ++ interp item.descr) ++
    lineIf (truthy item.contact_person && item.contact_person.getD "" != "No biography available")
      ("   Contact: " ++ interp item.contact_person) ++
    "\n"
  else if typ == "alumni" then
    toString (idx + 1) ++ ". Name: " ++ interp item.name ++ "\n" ++
    lineIf (truthy item.profile_url) ("   Profile: " ++ interp item.profile_url) ++
    lineIf (truthy item.bio && item.bio.getD "" != "No biography available")
      ("   Bio: " ++ interp item.bio) ++
    "\n"
  else if typ == "fellows" then
    toString (idx + 1) ++ ". Name: " ++ interp item.name ++ "\n" ++
    lineIf (truthy item.cohort) ("   Cohort: " ++ interp item.cohort) ++
    lineIf (truthy item.role) ("   Role: " ++ interp item.role) ++
    lineIf (truthy item.bio && item.bio.getD "" != "No biography available")
      ("   Bio: " ++ interp item.bio) ++
    "\n"
  else if typ == "schools" then
    toString (idx + 1) ++ ". Name: " ++ interp item.name ++ "\n" ++
    lineIf (truthy item.district) ("   District: " ++ interp item.district) ++
    lineIf (truthy item.location) ("   Location: " ++ interp item.location) ++
    lineIf (truthy item.typeField) ("   Type: " ++ interp item.typeField) ++
    lineIf (truthy item.descr && item.descr.getD "" != "No description available")
      ("   Description: " ++ interp item.descr) ++
    lineIf (truthy item.profile_url) ("   Profile: " ++ interp item.profile_url) ++
    "\n"
  else ""

/-- The function `formatStructuredContext(results, type, showAll, totalCountOverride)`.
`totalCountOverride` is `none` for `null`; `0` is falsy, as in
`totalCountOverride || results.length`. -/
def formatStructuredContext (results : List ScoredItem) (typ : String)
    (showAll : Bool) (tco : Option Nat) : FmtOut :=
  if results.length == 0 then
    { context := "", hasMore := false, totalCount := 0, shownCount := 0 }
  else
    let maxDisplay := 3
    let totalCount :=
      match tco with
      | some n => if n == 0 then results.length else n
      | none => results.length
    let hasMore := totalCount > maxDisplay && !showAll
    let shown := if showAll then results else results.take maxDisplay
    let header :=
      "Found " ++ toString totalCount ++ " " ++ typ ++ " (showing first " ++
        toString shown.length ++ (if hasMore then " - more available" else "") ++ "):\n\n"
    let body := String.join (shown.enum.map fun p => itemBlock typ p.1 p.2.item)
    let footer :=
      if hasMore then "\n...and " ++ toString (totalCount - maxDisplay) ++ " more.\n" else ""
    { context := header ++ body ++ footer
      hasMore := hasMore
      totalCount := totalCount
      shownCount := shown.length }

/-! ## The POST handler

The handler's effectful dependencies (file system, FAISS loading, the
retriever, the Bedrock model) are supplied as a `World` of abstract
outcomes; the three module-level caches are threaded explicitly. -/

/-- A thrown JavaScript `Error` (its `name` and `message`). -/
structure JsError where
  name : String
  message : String
deriving DecidableEq, Repr

/-- JavaScript `Error.prototype.toString()`. -/
def jsErrToString (e : JsError) : String :=
  if e.name == "" then e.message
  else if e.message == "" then e.name
  else e.name ++ ": " ++ e.message

structure Creds where
  accessKeyId : Option String
  secretAccessKey : Option String
  sessionToken : Option String
deriving DecidableEq, Repr

structure Env where
  AWS_REGION : Option String
  AWS_ACCESS_KEY_ID : Option String
  AWS_SECRET_ACCESS_KEY : Option String
  AWS_SESSION_TOKEN : Option String
deriving DecidableEq, Repr

/-- The parsed POST body: `{ query, showAll = false, aws_creds }`.
`aws_creds = none` models an absent/null field; `some obj` a supplied
object, possibly empty. -/
structure ReqBody where
  query : Option String
  showAll : Bool
  aws_creds : Option (List (String × String))
deriving DecidableEq, Repr

/-- The three module-level caches. The vector store and LLM objects carry
no observable state of their own, so their caches are `Option Unit`. -/
structure Caches where
  vectorStore : Option Unit
  llm : Option Unit
  structuredData : Option StructuredData
deriving DecidableEq, Repr

/-- A retrieved document chunk (its metadata and page content). -/
structure Doc where
  source : String
  page : String
  pageContent : String
deriving DecidableEq, Repr

/-- Outcomes of the handler's effectful dependencies. -/
structure World where
  /-- Result of reading and `JSON.parse`-ing `combined_data.json`
  (`none`: the read or parse throws). -/
  dataParse : Option StructuredData
  /-- JavaScript `fs.existsSync(vectorStorePath)`. -/
  vsExists : Bool
  /-- Outcome of `FaissStore.loadFromPython`. -/
  vsLoad : Except JsError Unit
  /-- The retrieval `vectorStore.asRetriever` with `k`, then `invoke(query)`. -/
  retrieve : Nat → String → List Doc
  /-- The Bedrock chat model composed with the string output parser,
  as a function of the full prompt. -/
  llmRun : String → String

/-- One element of the response's `sources` array. -/
inductive SrcEntry
  | structured (typ : String) (item : Item)
  | rag (source : String) (page : String) (content_preview : String)
deriving DecidableEq, Repr

structure RespBody where
  answer : Option String := none
  sources : Option (List SrcEntry) := none
  searchMode : Option String := none
  structuredResultsCount : Option Nat := none
  ragResultsCount : Option Nat := none
  structuredType : Option String := none
  cached : Option Bool := none
  status : Option String := none
  hasMore : Option Bool := none
  totalCount : Option Nat := none
  shownCount : Option Nat := none
  error : Option String := none
  details : Option String := none
  errorType : Option String := none
deriving DecidableEq, Repr

structure HttpResp where
  status : Nat
  body : RespBody
deriving DecidableEq, Repr

/-- The function `loadStructuredData()`: cached value, else read+parse (caching the
result), else the fallback object, uncached. -/
def loadStructuredDataM (w : World) (st : Caches) : Caches × StructuredData :=
  match st.structuredData with
  | some d => (st, d)
  | none =>
    match w.dataParse with
    | some d => ({ st with structuredData := some d }, d)
    | none => (st, fallbackData)

/-- The function `getVectorStore(creds)`: cached store, else load from disk; on failure
the error is rethrown (possibly wrapped). -/
def getVectorStoreM (w : World) (st : Caches) : Except JsError Caches :=
  match st.vectorStore with
  | some _ => .ok st
  | none =>
    if w.vsExists then
      match w.vsLoad with
      | .ok _ => .ok { st with vectorStore := some () }
      | .error e =>
        if jsIncludes e.message "ExpiredToken" || jsIncludes e.message "InvalidToken" ||
            jsIncludes e.message "NotAuthorizedException" then
          .error e
        else
          .error ⟨"Error", "Cannot load vector store. Error: " ++ e.message⟩
    else
      .error ⟨"Error", "Vector store not found at: public/vector-store"⟩

/-- The function `getLLM(creds)`: create the model on a cache miss. -/
def getLLMM (st : Caches) : Caches :=
  match st.llm with
  | some _ => st
  | none => { st with llm := some () }

/-- JavaScript `errorMessage = (error.message || error.toString())`. -/
def errMsgOf (e : JsError) : String :=
  if e.message != "" then e.message else jsErrToString e

/-- The expired/invalid-credentials test of the catch block. -/
def expiredCond (e : JsError) : Bool :=
  e.name == "ExpiredTokenException" ||
  jsIncludes e.name "Expired" ||
  jsIncludes (errMsgOf e) "ExpiredToken" ||
  jsIncludes (errMsgOf e) "expired" ||
  jsIncludes (errMsgOf e) "InvalidToken" ||
  jsIncludes (errMsgOf e) "NotAuthorizedException" ||
  jsIncludes (errMsgOf e) "UnrecognizedClientException" ||
  jsIncludes (errMsgOf e) "SignatureDoesNotMatch" ||
  jsIncludes (errMsgOf e) "InvalidSignatureException"

/-- The catch block of `POST`: classify the error, clear all three caches
on expired/invalid credentials, and build the HTTP 500 response. -/
def handleError (e : JsError) (st : Caches) : Caches × HttpResp :=
  if expiredCond e then
    (⟨none, none, none⟩,
     ⟨500,
      { error := some "AWS credentials have expired or are invalid. Please refresh your credentials and try again.",
        details := some (jsErrToString e),
        status := some "error",
        errorType := some "expired_token" }⟩)
  else if jsIncludes (errMsgOf e) "AccessDenied" ||
      jsIncludes (errMsgOf e) "UnauthorizedOperation" then
    (st,
     ⟨500,
      { error := some "Access denied. Please verify your AWS permissions.",
        details := some (jsErrToString e),
        status := some "error",
        errorType := some "access_denied" }⟩)
  else if jsIncludes (errMsgOf e) "AWS credentials not configured" then
    (st,
     ⟨500,
      { error := some "AWS credentials are not configured.",
        details := some (jsErrToString e),
        status := some "error",
        errorType := some "missing_credentials" }⟩)
  else
    (st,
     ⟨500,
      { error := some (if e.message != "" then e.message else "An error occurred"),
        details := some (jsErrToString e),
        status := some "error",
        errorType := some "error" }⟩)

def objLookup (o : List (String × String)) (k : String) : Option String :=
  (o.find? (fun p => p.1 == k)).map (·.2)

/-- The credential selection at the top of `POST`: client credentials when
`aws_creds` is a non-empty object, else the environment variables. -/
def credsOf (env : Env) (req : ReqBody) : Creds :=
  match req.aws_creds with
  | some o =>
    if o.length > 0 then
      ⟨objLookup o "accessKeyId", objLookup o "secretAccessKey", objLookup o "sessionToken"⟩
    else
      ⟨env.AWS_ACCESS_KEY_ID, env.AWS_SECRET_ACCESS_KEY, env.AWS_SESSION_TOKEN⟩
  | none => ⟨env.AWS_ACCESS_KEY_ID, env.AWS_SECRET_ACCESS_KEY, env.AWS_SESSION_TOKEN⟩

/-- JavaScript `!(!query || query.trim().length === 0)`. -/
def queryOk (req : ReqBody) : Bool :=
  truthy req.query && (jsTrim (req.query.getD "")).length != 0

/-- The prompt template pieces, around the three substituted variables. -/
def promptPre : String :=
  "\nYou are a helpful assistant answering questions about Teach For Nepal (TFN).\n\nSTRUCTURED DATA (Complete and Authoritative):\n"

def promptMid : String := "\n\nDOCUMENT CONTEXT (Supporting Information):\n"

def promptQn : String := "\n\nQUESTION: "

def promptPost : String :=
  "\n\nInstructions:\n- When listing **staff, partners, alumni, fellows, or schools**, include ALL the details provided (names, roles, bios, descriptions, cohorts, districts, etc.)\n- Do NOT just cite [Structured Data] - actually include the information in your answer\n- For list queries, format as a clean numbered list with full details\n- For individual queries, provide a comprehensive answer with all relevant details\n- Combine structured data with document context when both are relevant\n- Be natural and conversational, not robotic\n- If asking for \"all\" or \"list\", show complete information for each item\n- If a person appears in MULTIPLE roles (e.g., both alumni and staff), mention ALL their roles chronologically\n- Format multi-role persons as: \"[Name] is currently [current role] and was previously [past role]\"\n- For alumni who became staff: emphasize their journey (e.g., \"started as a fellow, now serves as...\")\n- Always include full details for each role\n- Be natural and tell their complete story with TFN\n- If only one role is found, focus on that role completely\n\nAnswer:"

/-- The single prompt sent to the model, with the three template variables
substituted. -/
def buildPrompt (structured_context document_context question : String) : String :=
  promptPre ++ structured_context ++ promptMid ++ document_context ++
    promptQn ++ question ++ promptPost

/-- STEP 2 of `POST`: on a structured query, load the data, search it, and
build the structured context, sources and pagination fields. Returns the
updated caches, `structuredContext`, `structuredSources` and
`structuredResponse = (hasMore, totalCount, shownCount)`. -/
def structuredStep (w : World) (req : ReqBody) (analysis : Analysis) (st0 : Caches) :
    Caches × String × List SrcEntry × (Bool × Nat × Nat) :=
  if analysis.isStructured && truthy analysis.type then
    let load := loadStructuredDataM w st0
    let searchResult :=
      searchStructuredData load.2 analysis.query (analysis.type.getD "")
        analysis.wantsComplete req.showAll
    let results := searchResult.results
    let totalStructuredCount := searchResult.totalCount
    if results.length > 0 then
      let formatted :=
        formatStructuredContext results (analysis.type.getD "") req.showAll
          (some totalStructuredCount)
      let structuredSources :=
        results.map fun r => SrcEntry.structured (analysis.type.getD "") r.item
      let isSpecificQuery := !analysis.wantsComplete && results.length == 1
      let wouldShowMore := totalStructuredCount > 3 && !req.showAll
      (load.1, formatted.context, structuredSources,
        (!isSpecificQuery && wouldShowMore, totalStructuredCount,
          if formatted.shownCount != 0 then formatted.shownCount else results.length))
    else
      (load.1, "", [], (false, 0, 0))
  else
    (st0, "", [], (false, 0, 0))

/-- STEPS 3–7 of `POST` (after the guards): vector store, LLM, cache
clearing for client credentials, the RAG chain, and the response. -/
def mainBody (w : World) (_env : Env) (req : ReqBody) (st0 : Caches) : Caches × HttpResp :=
  let query := req.query.getD ""
  let analysis := analyzeQueryType query
  let step := structuredStep w req analysis st0
  let structuredContext := step.2.1
  let structuredSources := step.2.2.1
  let structuredResponse := step.2.2.2
  match getVectorStoreM w step.1 with
  | .error e => handleError e step.1
  | .ok st2 =>
    let st3 := getLLMM st2
    let st4 :=
      if req.aws_creds.isSome then { st3 with vectorStore := none, llm := none } else st3
    let docs := w.retrieve 3 query
    let documentContext := String.intercalate "\n\n" (docs.map (·.pageContent))
    let promptStr :=
      buildPrompt
        (if structuredContext == "" then "No structured data relevant to this query."
         else structuredContext)
        documentContext query
    let answer := w.llmRun promptStr
    let ragDocs := w.retrieve 3 query
    let ragSources :=
      ragDocs.map fun d =>
        SrcEntry.rag d.source d.page (String.mk (d.pageContent.data.take 150) ++ "...")
    let allSources := structuredSources ++ ragSources
    let base : RespBody :=
      { answer := some (jsTrim answer)
        sources := some allSources
        searchMode := some "rag"
        structuredResultsCount := some structuredSources.length
        ragResultsCount := some ragSources.length
        structuredType := analysis.type
        cached := some st4.vectorStore.isSome
        status := some "success" }
    let responseData :=
      if structuredSources.length > 0 then
        { base with
            hasMore := some structuredResponse.1
            totalCount := some structuredResponse.2.1
            shownCount := some structuredResponse.2.2 }
      else base
    (st4, ⟨200, responseData⟩)

/-- The handler `POST(request)`: credential selection and guards, then the main body.
Thrown errors flow through `handleError` (the catch block). -/
def POSTrun (w : World) (env : Env) (req : ReqBody) (st0 : Caches) : Caches × HttpResp :=
  let credentials := credsOf env req
  if !truthy credentials.accessKeyId then
    handleError ⟨"Error", "No valid AWS credentials available (client or .env)"⟩ st0
  else if !queryOk req then
    (st0, ⟨400, { error := some "Query is required" }⟩)
  else if !truthy env.AWS_REGION || !truthy env.AWS_ACCESS_KEY_ID then
    handleError ⟨"Error", "AWS credentials not configured"⟩ st0
  else
    mainBody w env req st0

/-! ## Shorthands for the endpoint's observable pieces

Transparent compositions of the embedded functions, used to state the
claims about `POSTrun` compactly. -/

/-- Can STEP 3 obtain a vector store (cache hit, or the store directory
exists and loads)? -/
def vsOk (w : World) (vs : Option Unit) : Bool :=
  vs.isSome ||
    (w.vsExists &&
      match w.vsLoad with
      | .ok _ => true
      | .error _ => false)

def analysisOf (req : ReqBody) : Analysis := analyzeQueryType (req.query.getD "")

/-- The structured data in effect for a request (cache, parsed file, or
fallback). -/
def loadedData (w : World) (st : Caches) : StructuredData := (loadStructuredDataM w st).2

/-- The matched entity's full collection. -/
def collOf (w : World) (st : Caches) (req : ReqBody) : List Item :=
  (dataGet (loadedData w st) (dataKeyOf ((analysisOf req).type.getD ""))).getD []

/-- The structured search result for a request. -/
def searchOf (w : World) (st : Caches) (req : ReqBody) : SearchOut :=
  searchStructuredData (loadedData w st) (analysisOf req).query
    ((analysisOf req).type.getD "") (analysisOf req).wantsComplete req.showAll

/-- Did the request classify as structured and produce at least one search
result? -/
def structuredMatched (w : World) (st : Caches) (req : ReqBody) : Bool :=
  (analysisOf req).isStructured && truthy (analysisOf req).type &&
    (searchOf w st req).results.length > 0

/-- The structured-data section of the prompt: the formatted context when
matched, else the literal placeholder. -/
def structuredCtxOf (w : World) (st : Caches) (req : ReqBody) : String :=
  if structuredMatched w st req then
    (formatStructuredContext (searchOf w st req).results ((analysisOf req).type.getD "")
      req.showAll (some (searchOf w st req).totalCount)).context
  else "No structured data relevant to this query."

/-- The document section of the prompt: the top-3 retrieved chunks joined
by blank lines. -/
def docCtxOf (w : World) (req : ReqBody) : String :=
  String.intercalate "\n\n" ((w.retrieve 3 (req.query.getD "")).map (·.pageContent))

/-- The structured entries of the response's `sources`. -/
def structuredSrcsOf (w : World) (st : Caches) (req : ReqBody) : List SrcEntry :=
  if structuredMatched w st req then
    (searchOf w st req).results.map fun r =>
      SrcEntry.structured ((analysisOf req).type.getD "") r.item
  else []

/-- The document entries of the response's `sources`. -/
def ragSrcsOf (w : World) (req : ReqBody) : List SrcEntry :=
  (w.retrieve 3 (req.query.getD "")).map fun d =>
    SrcEntry.rag d.source d.page (String.mk (d.pageContent.data.take 150) ++ "...")

def respOf (w : World) (env : Env) (req : ReqBody) (st : Caches) : RespBody :=
  (POSTrun w env req st).2.body

def statusOf (w : World) (env : Env) (req : ReqBody) (st : Caches) : Nat :=
  (POSTrun w env req st).2.status

def cachesOf (w : World) (env : Env) (req : ReqBody) (st : Caches) : Caches :=
  (POSTrun w env req st).1

/-- What the targeted name-search branch returns: positive-scored records,
sorted by descending score, first three. -/
def nameBranchList (d : StructuredData) (t : String) (nm : String) : List ScoredItem :=
  (sortDesc ((((dataGet d (dataKeyOf t)).getD []).map fun item =>
    (⟨item, nameScore nm item⟩ : ScoredItem)).filter fun r => r.score > 0)).take 3

/-! ## Spec-side classifier (transcribed from claim C1's wording)

The claim describes `analyzeQueryType`'s structured-targeting decision as:
first matching explicit-type word regex in a fixed order (confidence 10),
otherwise 2 points per contained keyword plus 4 per contained phrase,
skipping excluded types, returning the best-scoring type exactly when the
best score is positive. Ties on the maximum go to the earliest type in
table order (the loop only replaces on a strict improvement). -/

def maxScoreL : List (String × Nat) → Nat
  | [] => 0
  | p :: rest => max p.2 (maxScoreL rest)

/-- The earliest entry attaining score `m`. -/
def firstMax (l : List (String × Nat)) (m : Nat) : Option String :=
  (l.find? (fun p => p.2 == m)).map (·.1)

/-- The `(isStructured, type, confidence)` triple as described by claim C1. -/
def claimClassifier (q : String) : Bool × Option String × Nat :=
  let lq := jsToLower q
  match explicitTypeList.find? (fun p => wordAny p.2 lq) with
  | some p => (true, some p.1, 10)
  | none =>
    let scores :=
      (patternList.filter fun p =>
        !(p.2.exclusions.any fun excl => jsIncludes lq excl)).map
        fun p => (p.1, patternScore lq p.2)
    let m := maxScoreL scores
    (decide (m > 0), if m > 0 then firstMax scores m else none, m)

/-! ## Concrete instances for witnesses and counterexamples -/

/-- A benign world: the data file parses to the fallback shape, the FAISS
store loads, retrieval finds one chunk, the model echoes a fixed answer. -/
def wW : World :=
  ⟨some ⟨some [⟨[("name", "ram"), ("role", "ceo")]⟩,
               ⟨[("name", "sita")]⟩,
               ⟨[("name", "hari")]⟩,
               ⟨[("name", "gita")]⟩], none, none, none, none⟩,
   true, .ok (),
   fun _ _ => [⟨"docs/report.pdf", "2", "page content"⟩],
   fun _ => " the answer "⟩

/-- A world whose `combined_data.json` read fails. -/
def wFail : World :=
  ⟨none, true, .ok (), fun _ _ => [], fun _ => "a"⟩

def envW : Env := ⟨some "us-east-1", some "AKIAENVKEY", some "envsecret", none⟩

/-- An environment with no AWS access key configured. -/
def envNoKey : Env := ⟨some "us-east-1", none, none, none⟩

/-- All three caches empty. -/
def stEmpty : Caches := ⟨none, none, none⟩

/-- A structured list query over staff, no client credentials. -/
def reqStaff : ReqBody := ⟨some "show me all staff", false, none⟩

/-- A request that supplies `aws_creds` as an empty object while the
environment provides the usable credentials. -/
def reqEmptyCreds : ReqBody := ⟨some "zzz", false, some []⟩

/-- A request with client credentials supplied. -/
def reqClientCreds : ReqBody :=
  ⟨some "zzz", false, some [("accessKeyId", "AKIACLIENT"), ("secretAccessKey", "cs")]⟩

/-- An unstructured request with no client credentials. -/
def reqPlain : ReqBody := ⟨some "zzz", false, none⟩

/-- A whitespace-only query. -/
def reqBlank : ReqBody := ⟨some "   ", false, none⟩

/-- Two staff records for the C5 counterexample: `itExact`'s name equals
the extracted search name; `itWords` matches only word-by-word but picks
up the role bonus. -/
def itExact : Item := ⟨[("name", "aaa bbb ccc ddd eee")]⟩

def itWords : Item := ⟨[("name", "eee ddd ccc bbb aaa"), ("role", "team aaa")]⟩

def dWords : StructuredData := ⟨some [itWords, itExact], none, none, none, none⟩

/-- A single-record staff collection for the C5 witness. -/
def dRam : StructuredData := ⟨some [⟨[("name", "ram")]⟩], none, none, none, none⟩

/-! # Theorems -/

/-! ## Helper lemmas -/

theorem filterMap_excl_eq (l : List (String × PatternCfg)) (lq : String) :
    (l.filterMap fun p =>
      if p.2.exclusions.any (fun excl => jsIncludes lq excl) then none
      else some (p.1, patternScore lq p.2)) =
    (l.filter fun p => !(p.2.exclusions.any fun excl => jsIncludes lq excl)).map
      (fun p => (p.1, patternScore lq p.2)) := by
  induction l with
  | nil => rfl
  | cons a t ih =>
    rw [List.filterMap_cons, List.filter_cons]
    cases h : (a.2.exclusions.any fun excl => jsIncludes lq excl) with
    | true => simpa using ih
    | false => simpa using ih

theorem firstMax_cons_ne (p : String × Nat) (rest : List (String × Nat)) (m : Nat)
    (hne : p.2 ≠ m) : firstMax (p :: rest) m = firstMax rest m := by
  unfold firstMax
  rw [List.find?_cons_of_neg]
  simp [hne]

theorem firstMax_cons_eq (p : String × Nat) (rest : List (String × Nat)) :
    firstMax (p :: rest) p.2 = some p.1 := by
  unfold firstMax
  rw [List.find?_cons_of_pos] <;> simp

theorem loopBest_eq (l : List (String × Nat)) (acc : Option String × Nat) :
    loopBest l acc =
      if maxScoreL l > acc.2 then (firstMax l (maxScoreL l), maxScoreL l) else acc := by
  induction l generalizing acc with
  | nil => simp [loopBest, maxScoreL]
  | cons p rest ih =>
    simp only [loopBest, maxScoreL]
    by_cases h : p.2 > acc.2
    · rw [if_pos h, ih]
      by_cases h2 : maxScoreL rest > p.2
      · have hmax : max p.2 (maxScoreL rest) = maxScoreL rest := by omega
        rw [hmax, if_pos h2, if_pos (show maxScoreL rest > acc.2 by omega),
          firstMax_cons_ne p rest _ (by omega)]
      · have hmax : max p.2 (maxScoreL rest) = p.2 := by omega
        rw [if_neg h2, hmax, if_pos h, firstMax_cons_eq]
    · rw [if_neg h, ih]
      by_cases h2 : maxScoreL rest > acc.2
      · have hmax : max p.2 (maxScoreL rest) = maxScoreL rest := by omega
        rw [if_pos h2, hmax, if_pos h2, firstMax_cons_ne p rest _ (by omega)]
      · rw [if_neg h2, if_neg (show ¬max p.2 (maxScoreL rest) > acc.2 by omega)]

/-! ## Claim C1 -/

/-- C1. For every query string, `analyzeQueryType`'s structured-data
decision `(isStructured, type, confidence)` is exactly as the claim
describes: the first matching explicit-type word regex (in the fixed table
order) wins with confidence 10; otherwise each non-excluded type scores
2 per contained keyword plus 4 per contained phrase, and the query is
structured with the best-scoring type exactly when the best score is
positive (not structured, type `null`, otherwise). -/
theorem claim_C1 (q : String) :
    ((analyzeQueryType q).isStructured, (analyzeQueryType q).type,
      (analyzeQueryType q).confidence) = claimClassifier q := by
  simp only [analyzeQueryType, claimClassifier]
  cases hf : explicitTypeList.find? (fun p => wordAny p.2 (jsToLower q)) with
  | some p => simp
  | none =>
    simp only []
    rw [filterMap_excl_eq, loopBest_eq]
    by_cases hm :
        maxScoreL ((patternList.filter fun p =>
          !(p.2.exclusions.any fun excl => jsIncludes (jsToLower q) excl)).map
            fun p => (p.1, patternScore (jsToLower q) p.2)) > 0
    · simp [hm]
    · simp only [if_neg hm]
      have h0 :
          maxScoreL ((patternList.filter fun p =>
            !(p.2.exclusions.any fun excl => jsIncludes (jsToLower q) excl)).map
              fun p => (p.1, patternScore (jsToLower q) p.2)) = 0 := by omega
      simp [h0]

/-! ## Claim C7 -/

/-- C7 counterexample. The complete-listing decision is *not* one
coherent predicate over a single indicator set: `"give me the fellows"`
contains the fallback list indicator `"give me"`, yet the explicit-type
branch (taken because `fellows` is mentioned) reports
`wantsComplete = false`, because its word-boundary regex only covers
all/list/every/show me. -/
theorem claim_C7_counterexample :
    (analyzeQueryType "give me the fellows").wantsComplete = false ∧
    "give me" ∈ listIndicators ∧
    jsIncludes (jsToLower "give me the fellows") "give me" = true ∧
    (analyzeQueryType "give me the graduate").wantsComplete = true := by
  refine ⟨by decide, by decide, by decide, by decide⟩

/-- C7 amended. `wantsComplete` is decided by two different indicator
tests depending on the branch: under an explicit entity-type mention it is
the word-boundary regex over all/list/every/show me; otherwise it is
substring containment of one of all/list/every/who are/show me/give me. -/
theorem claim_C7 (q : String) :
    (analyzeQueryType q).wantsComplete =
      if (explicitTypeList.find? fun p => wordAny p.2 (jsToLower q)).isSome then
        wordAny explicitListWords (jsToLower q)
      else listIndicators.any fun ind => jsIncludes (jsToLower q) ind := by
  simp only [analyzeQueryType]
  cases hf : explicitTypeList.find? (fun p => wordAny p.2 (jsToLower q)) with
  | some p => simp
  | none => simp

/-! ## Claim C4: helper lemmas about string endings -/

theorem strTail_append (s t : String) : strTail (s ++ t) t = true := by
  simp [strTail, String.data_append, Nat.add_sub_cancel, List.drop_left]

theorem strTail_suffix (s t : String) (h : strTail s t = true) :
    ∃ u, s.data = u ++ t.data := by
  unfold strTail at h
  rw [Bool.and_eq_true] at h
  obtain ⟨h1, h2⟩ := h
  rw [beq_iff_eq] at h2
  set k := s.data.length - t.data.length with hk
  refine ⟨s.data.take k, ?_⟩
  rw [← h2]
  exact (List.take_append_drop k s.data).symm

theorem footer_data (m : String) :
    ∃ A, ("\n...and " ++ m ++ " more.\n").data = A ++ ['.', '\n'] := by
  refine ⟨("\n...and " ++ m).data ++ [' ', 'm', 'o', 'r', 'e'], ?_⟩
  rw [String.data_append,
    show (" more.\n" : String).data = [' ', 'm', 'o', 'r', 'e'] ++ ['.', '\n'] from by decide,
    List.append_assoc]

theorem strTail_footer_false (s : String) (m : String)
    (hs : endsWithNlNl s ∨ s.data = []) :
    strTail s ("\n...and " ++ m ++ " more.\n") = false := by
  obtain ⟨A, hA⟩ := footer_data m
  cases hb : strTail s ("\n...and " ++ m ++ " more.\n") with
  | false => rfl
  | true =>
    exfalso
    obtain ⟨u, hu⟩ := strTail_suffix _ _ hb
    rw [hA] at hu
    cases hs with
    | inl h =>
      obtain ⟨v, hv⟩ := h
      rw [hu, ← List.append_assoc] at hv
      have h2 := (List.append_inj' hv (by simp)).2
      exact absurd h2 (by decide)
    | inr h =>
      rw [h] at hu
      exact absurd hu.symm (by simp)

theorem endsWithNl_lit (x : String) : endsWithNl (x ++ "\n") :=
  ⟨x.data, by simp [String.data_append]⟩

theorem endsWithNl_append_of (a b : String) (hb : endsWithNl b) : endsWithNl (a ++ b) := by
  obtain ⟨u, hu⟩ := hb
  exact ⟨a.data ++ u, by rw [String.data_append, hu, List.append_assoc]⟩

theorem endsWithNl_append_or (a b : String) (ha : endsWithNl a)
    (hb : b = "" ∨ endsWithNl b) : endsWithNl (a ++ b) := by
  cases hb with
  | inl h =>
    obtain ⟨u, hu⟩ := ha
    exact ⟨u, by rw [String.data_append, h, hu]; simp⟩
  | inr h => exact endsWithNl_append_of a b h

theorem opt_line (c : Bool) (x : String) :
    lineIf c x = "" ∨ endsWithNl (lineIf c x) := by
  unfold lineIf
  split
  · exact Or.inr (endsWithNl_lit x)
  · exact Or.inl rfl

theorem nn_of_nl (lines : String) (h : endsWithNl lines) : endsWithNlNl (lines ++ "\n") := by
  obtain ⟨u, hu⟩ := h
  refine ⟨u, ?_⟩
  rw [String.data_append, hu, List.append_assoc]
  rfl

theorem itemBlock_pres (typ : String) (i : Nat) (it : Item) :
    itemBlock typ i it = "" ∨ endsWithNlNl (itemBlock typ i it) := by
  unfold itemBlock
  split_ifs
  · exact Or.inr (nn_of_nl _ (endsWithNl_append_or _ _ (endsWithNl_lit _) (opt_line _ _)))
  · exact Or.inr (nn_of_nl _ (endsWithNl_append_or _ _
      (endsWithNl_append_or _ _ (endsWithNl_lit _) (opt_line _ _)) (opt_line _ _)))
  · exact Or.inr (nn_of_nl _ (endsWithNl_append_or _ _
      (endsWithNl_append_or _ _ (endsWithNl_lit _) (opt_line _ _)) (opt_line _ _)))
  · exact Or.inr (nn_of_nl _ (endsWithNl_append_or _ _
      (endsWithNl_append_or _ _
        (endsWithNl_append_or _ _ (endsWithNl_lit _) (opt_line _ _)) (opt_line _ _))
      (opt_line _ _)))
  · exact Or.inr (nn_of_nl _ (endsWithNl_append_or _ _
      (endsWithNl_append_or _ _
        (endsWithNl_append_or _ _
          (endsWithNl_append_or _ _
            (endsWithNl_append_or _ _ (endsWithNl_lit _) (opt_line _ _)) (opt_line _ _))
          (opt_line _ _))
        (opt_line _ _))
      (opt_line _ _)))
  · exact Or.inl rfl

theorem nn_append_pres (a b : String) (ha : endsWithNlNl a)
    (hb : b = "" ∨ endsWithNlNl b) : endsWithNlNl (a ++ b) := by
  cases hb with
  | inl h =>
    obtain ⟨u, hu⟩ := ha
    exact ⟨u, by rw [String.data_append, h, hu]; simp⟩
  | inr h =>
    obtain ⟨u, hu⟩ := h
    exact ⟨a.data ++ u, by rw [String.data_append, hu, List.append_assoc]⟩

theorem foldl_append_pres (l : List String) (acc : String)
    (hacc : acc = "" ∨ endsWithNlNl acc)
    (h : ∀ x ∈ l, x = "" ∨ endsWithNlNl x) :
    List.foldl (· ++ ·) acc l = "" ∨ endsWithNlNl (List.foldl (· ++ ·) acc l) := by
  induction l generalizing acc with
  | nil => exact hacc
  | cons x t ih =>
    refine ih (acc ++ x) ?_ (fun y hy => h y (List.mem_cons_of_mem x hy))
    have hx := h x (List.mem_cons_self x t)
    cases hacc with
    | inl h0 =>
      rw [h0]
      cases hx with
      | inl h1 => rw [h1]; exact Or.inl rfl
      | inr h1 =>
        right
        obtain ⟨u, hu⟩ := h1
        exact ⟨u, by rw [String.data_append, hu]; simp⟩
    | inr h0 => exact Or.inr (nn_append_pres acc x h0 hx)

theorem join_pres (l : List String) (h : ∀ x ∈ l, x = "" ∨ endsWithNlNl x) :
    String.join l = "" ∨ endsWithNlNl (String.join l) := by
  have := foldl_append_pres l "" (Or.inl rfl) h
  simpa [String.join] using this

theorem nn_header (x : String) : endsWithNlNl (x ++ "):\n\n") := by
  refine ⟨x.data ++ [')', ':'], ?_⟩
  rw [String.data_append,
    show ("):\n\n" : String).data = [')', ':'] ++ ['\n', '\n'] from by decide,
    ← List.append_assoc]

theorem body_pres (typ : String) (shown : List ScoredItem) :
    String.join (shown.enum.map fun p => itemBlock typ p.1 p.2.item) = "" ∨
      endsWithNlNl (String.join (shown.enum.map fun p => itemBlock typ p.1 p.2.item)) := by
  refine join_pres _ ?_
  intro x hx
  obtain ⟨p, _, rfl⟩ := List.mem_map.mp hx
  exact itemBlock_pres typ p.1 p.2.item

theorem context_tail (res : List ScoredItem) (typ : String) (n : Nat) :
    strTail (formatStructuredContext res typ false (some (n + 1))).context
        ("\n...and " ++ toString (n + 1 - 3) ++ " more.\n")
      = (formatStructuredContext res typ false (some (n + 1))).hasMore := by
  unfold formatStructuredContext
  by_cases h0 : (res.length == 0) = true
  · rw [if_pos h0]
    exact strTail_footer_false _ _ (Or.inr rfl)
  · rw [if_neg h0]
    simp only [Nat.succ_ne_zero, beq_iff_eq, if_false, Bool.not_false, Bool.and_true]
    by_cases hm : (decide (n + 1 > 3)) = true
    · simp only [hm, if_pos]
      exact strTail_append _ _
    · simp only [Bool.not_eq_true] at hm
      simp only [hm, if_neg, Bool.false_eq_true]
      refine strTail_footer_false _ _ (Or.inl ?_)
      refine nn_append_pres _ _ ?_ (Or.inl rfl)
      exact nn_append_pres _ _ (nn_header _) (body_pres _ _)

/-! ## Claim C4 -/

/-- C4. The truncation invariant: with `showAll` false,
`searchStructuredData` returns at most 3 scored results in every branch;
`formatStructuredContext` (with the positive `totalCountOverride` the
endpoint always passes) shows at most 3 (its context only depends on the
first 3 results and `shownCount ≤ 3`), and the `...and N more.` footer
terminates the context exactly when `hasMore`; with `showAll` true, every
record of the collection is returned with score 1. -/
theorem claim_C4 :
    (∀ d q t wc, (searchStructuredData d q t wc false).results.length ≤ 3) ∧
    (∀ res t n, (formatStructuredContext res t false (some (n + 1))).shownCount ≤ 3) ∧
    (∀ res t n,
      (formatStructuredContext res t false (some (n + 1))).context
        = (formatStructuredContext (res.take 3) t false (some (n + 1))).context) ∧
    (∀ res t n,
      strTail (formatStructuredContext res t false (some (n + 1))).context
          ("\n...and " ++ toString (n + 1 - 3) ++ " more.\n")
        = (formatStructuredContext res t false (some (n + 1))).hasMore) ∧
    (∀ d q t wc,
      searchStructuredData d q t wc true =
        ⟨((dataGet d (dataKeyOf t)).getD []).map fun item => ⟨item, 1⟩,
          ((dataGet d (dataKeyOf t)).getD []).length⟩) := by
  refine ⟨?_, ?_, ?_, fun res t n => context_tail res t n, ?_⟩
  · intro d q t wc
    unfold searchStructuredData
    simp only [Bool.false_eq_true, if_false]
    split_ifs <;> simp [List.length_take]
  · intro res t n
    unfold formatStructuredContext
    split_ifs <;> simp_all [List.length_take]
  · intro res t n
    unfold formatStructuredContext
    cases res with
    | nil => simp
    | cons a l =>
      simp only [List.take_cons, List.length_cons, List.take_take]
      norm_num
  · intro d q t wc
    unfold searchStructuredData
    simp

/-! ## Claim C5: the targeted name search -/

theorem mem_insertDesc (x y : ScoredItem) (l : List ScoredItem) :
    y ∈ insertDesc x l ↔ y = x ∨ y ∈ l := by
  induction l with
  | nil => simp [insertDesc]
  | cons a t ih =>
    unfold insertDesc
    split
    · simp [List.mem_cons]
    · simp only [List.mem_cons, ih]
      tauto

theorem pairwise_insertDesc (x : ScoredItem) (l : List ScoredItem)
    (h : l.Pairwise (fun a b => a.score ≥ b.score)) :
    (insertDesc x l).Pairwise (fun a b => a.score ≥ b.score) := by
  induction l with
  | nil => simp [insertDesc]
  | cons a t ih =>
    rw [List.pairwise_cons] at h
    obtain ⟨ha, ht⟩ := h
    unfold insertDesc
    split
    · rename_i hgt
      rw [List.pairwise_cons]
      refine ⟨?_, by rw [List.pairwise_cons]; exact ⟨ha, ht⟩⟩
      intro b hb
      rcases List.mem_cons.mp hb with rfl | hb
      · omega
      · have := ha b hb
        omega
    · rename_i hle
      rw [List.pairwise_cons]
      refine ⟨?_, ih ht⟩
      intro b hb
      rcases (mem_insertDesc x b t).mp hb with rfl | hb
      · omega
      · exact ha b hb

theorem mem_sortDesc (y : ScoredItem) (l : List ScoredItem) : y ∈ sortDesc l ↔ y ∈ l := by
  induction l with
  | nil => simp [sortDesc]
  | cons a t ih => simp [sortDesc, mem_insertDesc, ih]

theorem pairwise_sortDesc (l : List ScoredItem) :
    (sortDesc l).Pairwise (fun a b => a.score ≥ b.score) := by
  induction l with
  | nil => simp [sortDesc]
  | cons a t ih => exact pairwise_insertDesc a (sortDesc t) ih

/-- With a long-enough extracted name and `wantsComplete`/`showAll` false,
`searchStructuredData` takes the targeted name-search branch. -/
theorem search_name_branch (d : StructuredData) (q t : String)
    (h : 2 < (extractSearchName q).length) :
    searchStructuredData d q t false false =
      ⟨nameBranchList d t (extractSearchName q),
        ((dataGet d (dataKeyOf t)).getD []).length⟩ := by
  have hne : (extractSearchName q).isEmpty = false := by
    cases he : (extractSearchName q).isEmpty with
    | false => rfl
    | true =>
      rw [(String.isEmpty_iff (extractSearchName q)).mp he] at h
      exact absurd h (by decide)
  unfold searchStructuredData nameBranchList
  simp [hne, h]

theorem nameScore_exact (nm : String) (it : Item)
    (h : jsToLower (it.name.getD "") = nm) : 100 ≤ nameScore nm it := by
  unfold nameScore
  simp only [h, beq_self_eq_true, if_true]
  split <;> omega

theorem nameScore_partial (nm : String) (it : Item)
    (hne : jsToLower (it.name.getD "") ≠ nm)
    (hp : (jsIncludes (jsToLower (it.name.getD "")) nm
        || jsIncludes nm (jsToLower (it.name.getD ""))) = true) :
    50 ≤ nameScore nm it ∧ nameScore nm it ≤ 60 := by
  unfold nameScore
  have hb : (jsToLower (it.name.getD "") == nm) = false := by
    simp [hne]
  simp only [hb, Bool.false_eq_true, if_false, hp, if_true]
  split <;> omega

theorem nameScore_words (nm : String) (it : Item)
    (hne : jsToLower (it.name.getD "") ≠ nm)
    (hp : (jsIncludes (jsToLower (it.name.getD "")) nm
        || jsIncludes nm (jsToLower (it.name.getD ""))) = false) :
    20 * ((jsSplitWs nm).filter fun w =>
        w.length > 2 && (jsSplitWs (jsToLower (it.name.getD ""))).any
          fun iw => jsIncludes iw w || jsIncludes w iw).length
      ≤ nameScore nm it := by
  unfold nameScore
  have hb : (jsToLower (it.name.getD "") == nm) = false := by
    simp [hne]
  simp only [hb, Bool.false_eq_true, if_false, hp, if_true]
  split <;> omega

/-- Every returned entry of the name branch is a positively scored record
of the collection, with its `nameScore`. -/
theorem mem_nameBranchList (d : StructuredData) (t nm : String) (r : ScoredItem)
    (hr : r ∈ nameBranchList d t nm) :
    0 < r.score ∧ r.score = nameScore nm r.item := by
  unfold nameBranchList at hr
  have h1 : r ∈ sortDesc ((((dataGet d (dataKeyOf t)).getD []).map fun item =>
      (⟨item, nameScore nm item⟩ : ScoredItem)).filter fun r => r.score > 0) :=
    List.take_subset _ _ hr
  rw [mem_sortDesc] at h1
  obtain ⟨h2, h3⟩ := List.mem_filter.mp h1
  obtain ⟨item, _, rfl⟩ := List.mem_map.mp h2
  simp only [gt_iff_lt, decide_eq_true_eq] at h3
  exact ⟨h3, rfl⟩

/-- C5 (amended). For every collection and query with an extracted
search name longer than 2 characters (`wantsComplete` false), the name
branch returns only positively scored records, sorted non-increasingly,
cut to the first 3; an exact lowercase name match scores at least 100, a
partial name containment between 50 and 60, and a word-level match
20 per matching name word — so exact-name records are ranked ahead of all
records with only partial name-containment matches.  (The original
claim's ordering guarantee over *word-level* matchers is false: five
matching words plus the role bonus beat an exact match, as the
counterexample shows.) -/
theorem claim_C5 (d : StructuredData) (q t : String)
    (h : 2 < (extractSearchName q).length) :
    (searchStructuredData d q t false false).results
        = nameBranchList d t (extractSearchName q) ∧
    (searchStructuredData d q t false false).totalCount
        = ((dataGet d (dataKeyOf t)).getD []).length ∧
    (∀ r ∈ (searchStructuredData d q t false false).results,
        0 < r.score ∧ r.score = nameScore (extractSearchName q) r.item) ∧
    (searchStructuredData d q t false false).results.Pairwise
        (fun a b => a.score ≥ b.score) ∧
    (searchStructuredData d q t false false).results.length ≤ 3 ∧
    (∀ it : Item, jsToLower (it.name.getD "") = extractSearchName q →
        100 ≤ nameScore (extractSearchName q) it) ∧
    (∀ it : Item, jsToLower (it.name.getD "") ≠ extractSearchName q →
        (jsIncludes (jsToLower (it.name.getD "")) (extractSearchName q)
          || jsIncludes (extractSearchName q) (jsToLower (it.name.getD ""))) = true →
        50 ≤ nameScore (extractSearchName q) it ∧
          nameScore (extractSearchName q) it ≤ 60) ∧
    (∀ it : Item, jsToLower (it.name.getD "") ≠ extractSearchName q →
        (jsIncludes (jsToLower (it.name.getD "")) (extractSearchName q)
          || jsIncludes (extractSearchName q) (jsToLower (it.name.getD ""))) = false →
        20 * ((jsSplitWs (extractSearchName q)).filter fun w =>
            w.length > 2 && (jsSplitWs (jsToLower (it.name.getD ""))).any
              fun iw => jsIncludes iw w || jsIncludes w iw).length
          ≤ nameScore (extractSearchName q) it) ∧
    (∀ i j : Fin (searchStructuredData d q t false false).results.length,
        jsToLower (((searchStructuredData d q t false false).results.get i).item.name.getD "")
            = extractSearchName q →
        jsToLower (((searchStructuredData d q t false false).results.get j).item.name.getD "")
            ≠ extractSearchName q →
        (jsIncludes (jsToLower (((searchStructuredData d q t false false).results.get
              j).item.name.getD "")) (extractSearchName q)
          || jsIncludes (extractSearchName q)
              (jsToLower (((searchStructuredData d q t false false).results.get
                j).item.name.getD ""))) = true →
        (i : Nat) < (j : Nat)) := by
  have hb := search_name_branch d q t h
  have hres : (searchStructuredData d q t false false).results
      = nameBranchList d t (extractSearchName q) := by rw [hb]
  have hpair : (searchStructuredData d q t false false).results.Pairwise
      (fun a b => a.score ≥ b.score) := by
    rw [hres]
    unfold nameBranchList
    exact (pairwise_sortDesc _).sublist (List.take_sublist _ _)
  refine ⟨hres, by rw [hb], ?_, hpair, ?_, ?_, ?_, ?_, ?_⟩
  · intro r hr
    rw [hres] at hr
    exact mem_nameBranchList d t _ r hr
  · rw [hres]
    unfold nameBranchList
    simp [List.length_take]
  · exact fun it hit => nameScore_exact _ it hit
  · exact fun it h1 h2 => nameScore_partial _ it h1 h2
  · exact fun it h1 h2 => nameScore_words _ it h1 h2
  · intro i j hi hj hp
    by_contra hij
    have hg_i : (searchStructuredData d q t false false).results.get i
        ∈ nameBranchList d t (extractSearchName q) := by
      rw [← hres]
      exact List.get_mem _ i.1 i.2
    have hg_j : (searchStructuredData d q t false false).results.get j
        ∈ nameBranchList d t (extractSearchName q) := by
      rw [← hres]
      exact List.get_mem _ j.1 j.2
    have hscore_i := mem_nameBranchList d t _ _ hg_i
    have hscore_j := mem_nameBranchList d t _ _ hg_j
    have hex : 100 ≤ ((searchStructuredData d q t false false).results.get i).score := by
      rw [hscore_i.2]
      exact nameScore_exact _ _ hi
    have hpa := nameScore_partial _ _ hj hp
    have hlt : (j : Nat) < (i : Nat) ∨ (j : Nat) = (i : Nat) := by omega
    rcases hlt with hlt | heq
    · have := List.pairwise_iff_get.mp hpair j i (by exact hlt)
      have hja : ((searchStructuredData d q t false false).results.get j).score ≤ 60 := by
        rw [hscore_j.2]
        exact hpa.2
      omega
    · have : i = j := by
        apply Fin.ext
        omega
      rw [this] at hi
      exact hj hi

/-- C5 counterexample. A record matching only word-by-word (name
`"eee ddd ccc bbb aaa"`, 5 matching words, plus the 10-point role bonus:
110) outranks the record whose name exactly equals the extracted search
name (100), so an exact match is *not* always ranked ahead of word-level
matches. -/
theorem claim_C5_counterexample :
    2 < (extractSearchName "who is aaa bbb ccc ddd eee").length ∧
    jsToLower (itExact.name.getD "") = extractSearchName "who is aaa bbb ccc ddd eee" ∧
    jsToLower (itWords.name.getD "") ≠ extractSearchName "who is aaa bbb ccc ddd eee" ∧
    (jsIncludes (jsToLower (itWords.name.getD ""))
        (extractSearchName "who is aaa bbb ccc ddd eee")
      || jsIncludes (extractSearchName "who is aaa bbb ccc ddd eee")
        (jsToLower (itWords.name.getD ""))) = false ∧
    (searchStructuredData dWords "who is aaa bbb ccc ddd eee" "staff" false false).results.map
        (fun r => (r.item, r.score))
      = [(itWords, 110), (itExact, 100)] := by
  exact ⟨by decide, by decide, by decide, by decide, by decide⟩

/-- C5 witness. The name branch at a concrete query and collection. -/
theorem claim_C5_witness :
    2 < (extractSearchName "who is ram").length ∧
    (searchStructuredData dRam "who is ram" "staff" false false).results
      = nameBranchList dRam "staff" (extractSearchName "who is ram") :=
  ⟨by decide, (claim_C5 dRam "who is ram" "staff" (by decide)).1⟩

/-! ## Claim C6 -/

/-- C6. Failure recovery is exactly cache-clearing plus an HTTP error:
when the thrown error's name or message indicates expired/invalid AWS
credentials (`expiredCond`: name `ExpiredTokenException`/containing
`Expired`, or message containing one of ExpiredToken, expired,
InvalidToken, NotAuthorizedException, UnrecognizedClientException,
SignatureDoesNotMatch, InvalidSignatureException), the catch block nulls
all three caches and answers HTTP 500 with `errorType` `expired_token`;
every other error leaves the caches unchanged and answers HTTP 500 with
`status` `error` and `errorType` one of `access_denied`,
`missing_credentials`, `error`. -/
theorem claim_C6 (e : JsError) (st : Caches) :
    (expiredCond e = true →
      handleError e st =
        (⟨none, none, none⟩,
         ⟨500,
          { error := some "AWS credentials have expired or are invalid. Please refresh your credentials and try again.",
            details := some (jsErrToString e),
            status := some "error",
            errorType := some "expired_token" }⟩)) ∧
    (expiredCond e = false →
      (handleError e st).1 = st ∧
      (handleError e st).2.status = 500 ∧
      (handleError e st).2.body.status = some "error" ∧
      ((handleError e st).2.body.errorType = some "access_denied" ∨
       (handleError e st).2.body.errorType = some "missing_credentials" ∨
       (handleError e st).2.body.errorType = some "error")) := by
  constructor
  · intro h
    unfold handleError
    rw [if_pos h]
  · intro h
    unfold handleError
    rw [if_neg (by simp [h])]
    split_ifs <;> simp

/-- C6 witness. A concrete expired-token error clears the caches. -/
theorem claim_C6_witness :
    expiredCond ⟨"ExpiredTokenException", "boom"⟩ = true ∧
    handleError ⟨"ExpiredTokenException", "boom"⟩ ⟨some (), some (), some fallbackData⟩ =
      (⟨none, none, none⟩,
       ⟨500,
        { error := some "AWS credentials have expired or are invalid. Please refresh your credentials and try again.",
          details := some (jsErrToString ⟨"ExpiredTokenException", "boom"⟩),
          status := some "error",
          errorType := some "expired_token" }⟩) :=
  ⟨by decide,
    (claim_C6 ⟨"ExpiredTokenException", "boom"⟩ ⟨some (), some (), some fallbackData⟩).1
      (by decide)⟩

/-! ## The POST success path -/

theorem handleError_status (e : JsError) (st : Caches) :
    (handleError e st).2.status = 500 := by
  unfold handleError
  split_ifs <;> rfl

theorem POSTrun_eq_mainBody (w : World) (env : Env) (req : ReqBody) (st0 : Caches)
    (h1 : truthy (credsOf env req).accessKeyId = true)
    (h2 : queryOk req = true)
    (h3 : truthy env.AWS_REGION = true)
    (h4 : truthy env.AWS_ACCESS_KEY_ID = true) :
    POSTrun w env req st0 = mainBody w env req st0 := by
  unfold POSTrun
  simp [h1, h2, h3, h4]

theorem loadSD_caches (w : World) (st : Caches) :
    (loadStructuredDataM w st).1.vectorStore = st.vectorStore ∧
    (loadStructuredDataM w st).1.llm = st.llm := by
  unfold loadStructuredDataM
  cases st.structuredData with
  | some d => exact ⟨rfl, rfl⟩
  | none =>
    cases w.dataParse with
    | some d => exact ⟨rfl, rfl⟩
    | none => exact ⟨rfl, rfl⟩

theorem structuredStep_caches (w : World) (req : ReqBody) (a : Analysis) (st : Caches) :
    (structuredStep w req a st).1.vectorStore = st.vectorStore ∧
    (structuredStep w req a st).1.llm = st.llm := by
  unfold structuredStep
  split
  · dsimp only
    split
    · exact loadSD_caches w st
    · exact loadSD_caches w st
  · exact ⟨rfl, rfl⟩

theorem getVectorStoreM_ok (w : World) (st : Caches)
    (h : vsOk w st.vectorStore = true) :
    getVectorStoreM w st = .ok { st with vectorStore := some () } := by
  cases st with
  | mk vs llm sd =>
    cases vs with
    | some u => cases u; rfl
    | none =>
      simp only [vsOk, Option.isSome_none, Bool.false_or, Bool.and_eq_true] at h
      obtain ⟨h1, h2⟩ := h
      unfold getVectorStoreM
      simp only [h1, if_true]
      cases hvl : w.vsLoad with
      | ok u => rfl
      | error e =>
        rw [hvl] at h2
        simp at h2

theorem mainBody_eq (w : World) (env : Env) (req : ReqBody) (st0 : Caches)
    (hvs : vsOk w st0.vectorStore = true) :
    mainBody w env req st0 =
      (let q := req.query.getD ""
       let step := structuredStep w req (analyzeQueryType q) st0
       let docs := w.retrieve 3 q
       let ragSources := docs.map fun d =>
         SrcEntry.rag d.source d.page (String.mk (d.pageContent.data.take 150) ++ "...")
       let base : RespBody :=
         { answer := some (jsTrim (w.llmRun (buildPrompt
             (if step.2.1 == "" then "No structured data relevant to this query."
              else step.2.1)
             (String.intercalate "\n\n" (docs.map (·.pageContent))) q)))
           sources := some (step.2.2.1 ++ ragSources)
           searchMode := some "rag"
           structuredResultsCount := some step.2.2.1.length
           ragResultsCount := some ragSources.length
           structuredType := (analyzeQueryType q).type
           cached := some (!req.aws_creds.isSome)
           status := some "success" }
       ((if req.aws_creds.isSome then (⟨none, none, step.1.structuredData⟩ : Caches)
         else ⟨some (), some (), step.1.structuredData⟩),
        ⟨200,
         if step.2.2.1.length > 0 then
           { base with
               hasMore := some step.2.2.2.1
               totalCount := some step.2.2.2.2.1
               shownCount := some step.2.2.2.2.2 }
         else base⟩)) := by
  unfold mainBody
  have hc := structuredStep_caches w req (analyzeQueryType (req.query.getD "")) st0
  have hvs2 : vsOk w
      (structuredStep w req (analyzeQueryType (req.query.getD "")) st0).1.vectorStore
        = true := by
    rw [hc.1]
    exact hvs
  dsimp only
  rw [getVectorStoreM_ok w _ hvs2]
  dsimp only
  generalize (structuredStep w req (analyzeQueryType (req.query.getD "")) st0) = step
  obtain ⟨st1, ctx, srcs, sr⟩ := step
  obtain ⟨vs1, llm1, sd1⟩ := st1
  obtain ⟨query0, showAll0, creds0⟩ := req
  cases creds0 with
  | none =>
    cases llm1 with
    | none => rfl
    | some u => cases u; rfl
  | some o =>
    cases llm1 with
    | none => rfl
    | some u => cases u; rfl

theorem search_totalCount (d : StructuredData) (q t : String) (wc sa : Bool) :
    (searchStructuredData d q t wc sa).totalCount
      = ((dataGet d (dataKeyOf t)).getD []).length := by
  unfold searchStructuredData
  dsimp only
  split_ifs <;> rfl

theorem structuredStep_pos (w : World) (req : ReqBody) (a : Analysis) (st : Caches)
    (h1 : a.isStructured = true) (h2 : truthy a.type = true)
    (h3 : (searchStructuredData (loadStructuredDataM w st).2 a.query (a.type.getD "")
        a.wantsComplete req.showAll).results.length > 0) :
    structuredStep w req a st =
      (let sr := searchStructuredData (loadStructuredDataM w st).2 a.query (a.type.getD "")
         a.wantsComplete req.showAll
       let formatted := formatStructuredContext sr.results (a.type.getD "") req.showAll
         (some sr.totalCount)
       ((loadStructuredDataM w st).1,
        formatted.context,
        sr.results.map fun r => SrcEntry.structured (a.type.getD "") r.item,
        (!(!a.wantsComplete && sr.results.length == 1)
            && (decide (sr.totalCount > 3) && !req.showAll),
         sr.totalCount,
         if formatted.shownCount != 0 then formatted.shownCount else sr.results.length))) := by
  unfold structuredStep
  rw [if_pos (show (a.isStructured && truthy a.type) = true by simp [h1, h2])]
  dsimp only
  rw [if_pos h3]

theorem structuredStep_nil (w : World) (req : ReqBody) (a : Analysis) (st : Caches)
    (h : (a.isStructured && truthy a.type) = false ∨
      (searchStructuredData (loadStructuredDataM w st).2 a.query (a.type.getD "")
        a.wantsComplete req.showAll).results.length = 0) :
    (structuredStep w req a st).2 = ("", [], (false, 0, 0)) := by
  unfold structuredStep
  rcases h with h | h
  · rw [if_neg (by simp [h])]
  · by_cases hc : (a.isStructured && truthy a.type) = true
    · rw [if_pos hc]
      dsimp only
      rw [if_neg (by omega)]
    · rw [if_neg hc]

/-! ## Claim C2 -/

/-- C2. For every structured query with at least one search result
(on the success path), the response's `totalCount` is the full size of
the matched entity's collection — not the number shown — and `hasMore`
holds exactly when that total exceeds 3, `showAll` was not requested, and
the query was not a specific single-match query; when no structured
sources are produced, the response carries no
`hasMore`/`totalCount`/`shownCount` fields. -/
theorem claim_C2 (w : World) (env : Env) (req : ReqBody) (st0 : Caches)
    (hak : truthy (credsOf env req).accessKeyId = true)
    (hq : queryOk req = true)
    (hr1 : truthy env.AWS_REGION = true)
    (hr2 : truthy env.AWS_ACCESS_KEY_ID = true)
    (hvs : vsOk w st0.vectorStore = true) :
    ((analysisOf req).isStructured = true → truthy (analysisOf req).type = true →
      (searchOf w st0 req).results.length > 0 →
      (respOf w env req st0).totalCount = some (collOf w st0 req).length ∧
      (respOf w env req st0).hasMore =
        some (!(!(analysisOf req).wantsComplete && (searchOf w st0 req).results.length == 1)
          && (decide (3 < (collOf w st0 req).length) && !req.showAll))) ∧
    (structuredMatched w st0 req = false →
      (respOf w env req st0).hasMore = none ∧
      (respOf w env req st0).totalCount = none ∧
      (respOf w env req st0).shownCount = none) := by
  have hresp : respOf w env req st0 = (mainBody w env req st0).2.body := by
    unfold respOf
    rw [POSTrun_eq_mainBody w env req st0 hak hq hr1 hr2]
  rw [mainBody_eq w env req st0 hvs] at hresp
  dsimp only at hresp
  rw [show analyzeQueryType (req.query.getD "") = analysisOf req from rfl] at hresp
  constructor
  · intro h1 h2 h3
    have hstep := structuredStep_pos w req (analysisOf req) st0 h1 h2 h3
    dsimp only at hstep
    rw [hstep] at hresp
    dsimp only at hresp
    rw [if_pos (by simpa [searchOf, loadedData] using h3)] at hresp
    rw [hresp]
    constructor <;> (dsimp only; rw [search_totalCount]; rfl)
  · intro h
    have hd : ((analysisOf req).isStructured && truthy (analysisOf req).type) = false ∨
        (searchOf w st0 req).results.length = 0 := by
      unfold structuredMatched at h
      rcases hb : ((analysisOf req).isStructured && truthy (analysisOf req).type) with _ | _
      · exact Or.inl rfl
      · rw [hb] at h
        simp at h
        exact Or.inr (by rw [h]; rfl)
    have hnil := structuredStep_nil w req (analysisOf req) st0 hd
    have hsrc : (structuredStep w req (analysisOf req) st0).2.2.1 = [] := by
      rw [hnil]
    rw [hsrc] at hresp
    rw [if_neg (by simp)] at hresp
    rw [hresp]
    exact ⟨rfl, rfl, rfl⟩

/-- C2 witness. The structured staff query `"show me all staff"` over
a 4-record collection: `totalCount` reports 4 (3 shown) and `hasMore`. -/
theorem claim_C2_witness :
    (respOf wW envW reqStaff stEmpty).totalCount = some 4 ∧
    (respOf wW envW reqStaff stEmpty).hasMore = some true := by
  have h := claim_C2 wW envW reqStaff stEmpty (by decide) (by decide) (by decide)
    (by decide) (by decide)
  have h1 := h.1 (by decide) (by decide) (by decide)
  exact ⟨h1.1.trans (by decide), h1.2.trans (by decide)⟩

/-! ## Claim C3 -/

theorem fmt_context_ne (results : List ScoredItem) (t : String) (sa : Bool)
    (tco : Option Nat) (h : 0 < results.length) :
    (formatStructuredContext results t sa tco).context ≠ "" := by
  unfold formatStructuredContext
  rw [if_neg (by simp only [beq_iff_eq]; omega)]
  dsimp only
  intro heq
  have hd := congrArg String.data heq
  simp [String.data_append] at hd

theorem structuredCtx_sel (w : World) (req : ReqBody) (st0 : Caches) :
    (if (structuredStep w req (analysisOf req) st0).2.1 == "" then
      "No structured data relevant to this query."
     else (structuredStep w req (analysisOf req) st0).2.1) = structuredCtxOf w st0 req := by
  cases hm : structuredMatched w st0 req with
  | true =>
    have hm' := hm
    unfold structuredMatched at hm'
    simp only [Bool.and_eq_true] at hm'
    obtain ⟨⟨h1, h2⟩, h3⟩ := hm'
    simp only [gt_iff_lt, decide_eq_true_eq] at h3
    have hstep := structuredStep_pos w req (analysisOf req) st0 h1 h2 h3
    dsimp only at hstep
    rw [hstep]
    dsimp only
    rw [if_neg (by
      simp only [beq_iff_eq]
      exact fmt_context_ne _ _ _ _ h3)]
    unfold structuredCtxOf
    rw [hm]
    rfl
  | false =>
    have hd : ((analysisOf req).isStructured && truthy (analysisOf req).type) = false ∨
        (searchOf w st0 req).results.length = 0 := by
      have hm' := hm
      unfold structuredMatched at hm'
      rcases hb : ((analysisOf req).isStructured && truthy (analysisOf req).type) with _ | _
      · exact Or.inl rfl
      · rw [hb] at hm'
        simp at hm'
        exact Or.inr (by rw [hm']; rfl)
    have hnil := structuredStep_nil w req (analysisOf req) st0 hd
    have hctx : (structuredStep w req (analysisOf req) st0).2.1 = "" := by rw [hnil]
    rw [hctx]
    unfold structuredCtxOf
    rw [hm]
    rfl

theorem structuredSrcs_sel (w : World) (req : ReqBody) (st0 : Caches) :
    (structuredStep w req (analysisOf req) st0).2.2.1 = structuredSrcsOf w st0 req := by
  cases hm : structuredMatched w st0 req with
  | true =>
    have hm' := hm
    unfold structuredMatched at hm'
    simp only [Bool.and_eq_true] at hm'
    obtain ⟨⟨h1, h2⟩, h3⟩ := hm'
    simp only [gt_iff_lt, decide_eq_true_eq] at h3
    have hstep := structuredStep_pos w req (analysisOf req) st0 h1 h2 h3
    dsimp only at hstep
    rw [hstep]
    unfold structuredSrcsOf
    rw [hm]
    dsimp only
    rfl
  | false =>
    have hd : ((analysisOf req).isStructured && truthy (analysisOf req).type) = false ∨
        (searchOf w st0 req).results.length = 0 := by
      have hm' := hm
      unfold structuredMatched at hm'
      rcases hb : ((analysisOf req).isStructured && truthy (analysisOf req).type) with _ | _
      · exact Or.inl rfl
      · rw [hb] at hm'
        simp at hm'
        exact Or.inr (by rw [hm']; rfl)
    have hnil := structuredStep_nil w req (analysisOf req) st0 hd
    have hsrc : (structuredStep w req (analysisOf req) st0).2.2.1 = [] := by rw [hnil]
    rw [hsrc]
    unfold structuredSrcsOf
    rw [hm]
    rfl

/-- C3. On the success path the single prompt sent to the model always
carries a structured-data section — the formatted structured context when
the query classified structured and matched records, otherwise the
literal placeholder — and a document section built from the top-3
retrieved chunks; and the response's `sources` is exactly the structured
sources followed by the document sources. -/
theorem claim_C3 (w : World) (env : Env) (req : ReqBody) (st0 : Caches)
    (hak : truthy (credsOf env req).accessKeyId = true)
    (hq : queryOk req = true)
    (hr1 : truthy env.AWS_REGION = true)
    (hr2 : truthy env.AWS_ACCESS_KEY_ID = true)
    (hvs : vsOk w st0.vectorStore = true) :
    (respOf w env req st0).answer
      = some (jsTrim (w.llmRun (buildPrompt (structuredCtxOf w st0 req)
          (docCtxOf w req) (req.query.getD "")))) ∧
    (respOf w env req st0).sources
      = some (structuredSrcsOf w st0 req ++ ragSrcsOf w req) := by
  have hresp : respOf w env req st0 = (mainBody w env req st0).2.body := by
    unfold respOf
    rw [POSTrun_eq_mainBody w env req st0 hak hq hr1 hr2]
  rw [mainBody_eq w env req st0 hvs] at hresp
  dsimp only at hresp
  rw [show analyzeQueryType (req.query.getD "") = analysisOf req from rfl] at hresp
  rw [structuredCtx_sel w req st0, structuredSrcs_sel w req st0] at hresp
  rw [hresp]
  by_cases hlen : (structuredSrcsOf w st0 req).length > 0
  · rw [if_pos hlen]
    exact ⟨rfl, rfl⟩
  · rw [if_neg hlen]
    exact ⟨rfl, rfl⟩

/-- C3 witness. The structured staff query at the concrete world. -/
theorem claim_C3_witness :
    (respOf wW envW reqStaff stEmpty).answer
      = some (jsTrim (wW.llmRun (buildPrompt (structuredCtxOf wW stEmpty reqStaff)
          (docCtxOf wW reqStaff) (reqStaff.query.getD "")))) ∧
    (respOf wW envW reqStaff stEmpty).sources
      = some (structuredSrcsOf wW stEmpty reqStaff ++ ragSrcsOf wW reqStaff) :=
  claim_C3 wW envW reqStaff stEmpty (by decide) (by decide) (by decide) (by decide)
    (by decide)

/-! ## Claim C8 -/

/-- C8 counterexample. A request whose `aws_creds` is an *empty*
object uses only the environment credentials, yet the handler still nulls
the vector-store and LLM caches and reports `cached: false` — the
cache-clearing test is `if (aws_creds)`, not the non-emptiness test used
for credential selection.  So "requests using only environment
credentials leave the caches populated" is false as stated. -/
theorem claim_C8_counterexample :
    reqEmptyCreds.aws_creds = some [] ∧
    credsOf envW reqEmptyCreds =
      ⟨envW.AWS_ACCESS_KEY_ID, envW.AWS_SECRET_ACCESS_KEY, envW.AWS_SESSION_TOKEN⟩ ∧
    (cachesOf wW envW reqEmptyCreds stEmpty).vectorStore = none ∧
    (cachesOf wW envW reqEmptyCreds stEmpty).llm = none ∧
    (respOf wW envW reqEmptyCreds stEmpty).cached = some false :=
  ⟨by decide, by decide, by decide, by decide, by decide⟩

/-- C8 (amended). On the success path: whenever the request body
supplies an `aws_creds` field at all (even an empty object), the
vector-store and LLM caches end up `null` after serving the request and
the response reports `cached: false`; only requests *omitting*
`aws_creds` leave both caches populated (and report `cached: true`). -/
theorem claim_C8 (w : World) (env : Env) (req : ReqBody) (st0 : Caches)
    (hak : truthy (credsOf env req).accessKeyId = true)
    (hq : queryOk req = true)
    (hr1 : truthy env.AWS_REGION = true)
    (hr2 : truthy env.AWS_ACCESS_KEY_ID = true)
    (hvs : vsOk w st0.vectorStore = true) :
    (req.aws_creds.isSome = true →
      (cachesOf w env req st0).vectorStore = none ∧
      (cachesOf w env req st0).llm = none ∧
      (respOf w env req st0).cached = some false) ∧
    (req.aws_creds = none →
      (cachesOf w env req st0).vectorStore = some () ∧
      (cachesOf w env req st0).llm = some () ∧
      (respOf w env req st0).cached = some true) := by
  have hpost := POSTrun_eq_mainBody w env req st0 hak hq hr1 hr2
  have hmain := mainBody_eq w env req st0 hvs
  constructor
  · intro hc
    unfold cachesOf respOf
    rw [hpost, hmain]
    dsimp only
    rw [hc]
    refine ⟨rfl, rfl, ?_⟩
    dsimp only
    split <;> rfl
  · intro hc
    unfold cachesOf respOf
    rw [hpost, hmain]
    dsimp only
    rw [hc]
    refine ⟨rfl, rfl, ?_⟩
    dsimp only
    split <;> rfl

/-- C8 witness. Client credentials supplied: caches nulled,
`cached: false`; no `aws_creds`: caches populated, `cached: true`. -/
theorem claim_C8_witness :
    (cachesOf wW envW reqClientCreds stEmpty).vectorStore = none ∧
    (cachesOf wW envW reqClientCreds stEmpty).llm = none ∧
    (respOf wW envW reqClientCreds stEmpty).cached = some false ∧
    (respOf wW envW reqPlain stEmpty).cached = some true := by
  have h1 := (claim_C8 wW envW reqClientCreds stEmpty (by decide) (by decide) (by decide)
    (by decide) (by decide)).1 (by decide)
  have h2 := (claim_C8 wW envW reqPlain stEmpty (by decide) (by decide) (by decide)
    (by decide) (by decide)).2 (by decide)
  exact ⟨h1.1, h1.2.1, h1.2.2, h2.2.2⟩

/-! ## Claim C9 -/

/-- C9. The credential-presence check runs before query validation:
with no usable access key, `POST` answers HTTP 500 with
`'No valid AWS credentials available (client or .env)'` even for a
missing/blank query; the 400 `'Query is required'` rejection happens
exactly for bad queries when an access key is available, and any 400
response implies an access key was available. -/
theorem claim_C9 (w : World) (env : Env) (req : ReqBody) (st0 : Caches) :
    (truthy (credsOf env req).accessKeyId = false →
      POSTrun w env req st0 =
        (st0,
         ⟨500,
          { error := some "No valid AWS credentials available (client or .env)",
            details := some "Error: No valid AWS credentials available (client or .env)",
            status := some "error",
            errorType := some "error" }⟩)) ∧
    (truthy (credsOf env req).accessKeyId = true → queryOk req = false →
      POSTrun w env req st0 = (st0, ⟨400, { error := some "Query is required" }⟩)) ∧
    ((POSTrun w env req st0).2.status = 400 →
      truthy (credsOf env req).accessKeyId = true) := by
  refine ⟨?_, ?_, ?_⟩
  · intro h
    unfold POSTrun
    rw [if_pos (by simp [h])]
    unfold handleError
    rw [if_neg (by decide), if_neg (by decide), if_neg (by decide)]
    rfl
  · intro h1 h2
    unfold POSTrun
    rw [if_neg (by simp [h1]), if_pos (by simp [h2])]
  · intro h
    by_cases hak : truthy (credsOf env req).accessKeyId = true
    · exact hak
    · exfalso
      have hak' : truthy (credsOf env req).accessKeyId = false := by
        simpa using hak
      unfold POSTrun at h
      rw [if_pos (by simp [hak'])] at h
      rw [handleError_status] at h
      exact absurd h (by decide)

/-- C9 witness. A blank query: with no configured access key the
response is the 500 credentials error; with one it is the 400. -/
theorem claim_C9_witness :
    POSTrun wW envNoKey reqBlank stEmpty =
      (stEmpty,
       ⟨500,
        { error := some "No valid AWS credentials available (client or .env)",
          details := some "Error: No valid AWS credentials available (client or .env)",
          status := some "error",
          errorType := some "error" }⟩) ∧
    POSTrun wW envW reqBlank stEmpty =
      (stEmpty, ⟨400, { error := some "Query is required" }⟩) :=
  ⟨(claim_C9 wW envNoKey reqBlank stEmpty).1 (by decide),
   (claim_C9 wW envW reqBlank stEmpty).2.1 (by decide) (by decide)⟩

/-! ## Claim C10 -/

theorem loadSD_fail (w : World) (st : Caches)
    (h1 : st.structuredData = none) (h2 : w.dataParse = none) :
    loadStructuredDataM w st = (st, fallbackData) := by
  simp only [loadStructuredDataM, h1, h2]

theorem fallback_empty (t : String) :
    (dataGet fallbackData (dataKeyOf t)).getD [] = [] := by
  unfold dataGet dataKeyOf fallbackData
  split_ifs <;> rfl

theorem fallback_search (q t : String) (wc sa : Bool) :
    searchStructuredData fallbackData q t wc sa = ⟨[], 0⟩ := by
  unfold searchStructuredData
  rw [fallback_empty]
  dsimp only
  split_ifs <;> rfl

/-- C10. If reading/parsing `combined_data.json` fails,
`loadStructuredData` returns the `{ staff_members: [], partners: [] }`
fallback without caching it; every structured search over that fallback
(any entity type, so also alumni/fellows/schools whose keys are absent)
yields zero results with `totalCount` 0; and on the success path such a
request still completes (HTTP 200) through the document-retrieval path,
with no structured sources. -/
theorem claim_C10 :
    (∀ (w : World) (st : Caches), st.structuredData = none → w.dataParse = none →
      loadStructuredDataM w st = (st, fallbackData)) ∧
    (∀ (q t : String) (wc sa : Bool),
      searchStructuredData fallbackData q t wc sa = ⟨[], 0⟩) ∧
    (∀ (w : World) (env : Env) (req : ReqBody) (st0 : Caches),
      truthy (credsOf env req).accessKeyId = true → queryOk req = true →
      truthy env.AWS_REGION = true → truthy env.AWS_ACCESS_KEY_ID = true →
      vsOk w st0.vectorStore = true →
      st0.structuredData = none → w.dataParse = none →
      statusOf w env req st0 = 200 ∧
      (respOf w env req st0).structuredResultsCount = some 0 ∧
      (respOf w env req st0).hasMore = none) := by
  refine ⟨loadSD_fail, fallback_search, ?_⟩
  intro w env req st0 hak hq hr1 hr2 hvs h1 h2
  have hsearch : searchOf w st0 req = ⟨[], 0⟩ := by
    unfold searchOf loadedData
    rw [loadSD_fail w st0 h1 h2]
    exact fallback_search _ _ _ _
  have hmatched : structuredMatched w st0 req = false := by
    unfold structuredMatched
    rw [hsearch]
    simp
  have hsrcs : structuredSrcsOf w st0 req = [] := by
    unfold structuredSrcsOf
    rw [hmatched]
    rfl
  have hresp : respOf w env req st0 = (mainBody w env req st0).2.body := by
    unfold respOf
    rw [POSTrun_eq_mainBody w env req st0 hak hq hr1 hr2]
  have hstat : statusOf w env req st0 = (mainBody w env req st0).2.status := by
    unfold statusOf
    rw [POSTrun_eq_mainBody w env req st0 hak hq hr1 hr2]
  rw [mainBody_eq w env req st0 hvs] at hresp hstat
  dsimp only at hresp hstat
  rw [show analyzeQueryType (req.query.getD "") = analysisOf req from rfl] at hresp
  rw [structuredSrcs_sel w req st0, hsrcs] at hresp
  rw [if_neg (by simp)] at hresp
  rw [hresp, hstat]
  exact ⟨rfl, rfl, rfl⟩

/-- C10 witness. A failing data file with a structured staff query:
the request still answers 200 with no structured sources. -/
theorem claim_C10_witness :
    statusOf wFail envW reqStaff stEmpty = 200 ∧
    (respOf wFail envW reqStaff stEmpty).structuredResultsCount = some 0 ∧
    (respOf wFail envW reqStaff stEmpty).hasMore = none :=
  claim_C10.2.2 wFail envW reqStaff stEmpty (by decide) (by decide) (by decide)
    (by decide) (by decide) (by decide) (by decide)

end TFN
